import Mathlib

/-!
Verification of the extraction pipeline in `search.py`.

The pipeline under study is `extract_data_to_csv` together with its helpers
`validate_email` and `convert_to_numeric`.  Strings are modelled as `List Char`;
Python regular-expression matching is modelled by a small backtracking engine
(`matchL`) whose alternative/greedy/lazy priorities mirror CPython's `re`
module; Python `float` values are modelled exactly over `ℚ` (the inputs the
pipeline feeds to `float` are short decimal numerals, on which binary floating
point arithmetic is exact).  Character classes are modelled at ASCII width,
which covers every character the patterns mention.
-/

namespace GSearch

/-- Convenience: the character list of a string literal. -/
def strL (s : String) : List Char := s.data

/-- ASCII decimal digit test, modelling the `\d` class and `str.isdigit` on the
ASCII range. -/
def isDigitC (c : Char) : Bool := 48 ≤ c.toNat && c.toNat ≤ 57

/-- ASCII letter test, modelling the `[a-zA-Z]` class. -/
def isAlphaC (c : Char) : Bool :=
  (97 ≤ c.toNat && c.toNat ≤ 122) || (65 ≤ c.toNat && c.toNat ≤ 90)

/-- Python whitespace (`\s`, `str.strip`, `str.split`) restricted to ASCII:
space, tab, newline, carriage return, vertical tab, form feed. -/
def pySpace (c : Char) : Bool :=
  c == ' ' || c == '\t' || c == '\n' || c == '\r' || c == '\x0b' || c == '\x0c'

/-- ASCII upper-casing of one character, modelling `str.upper` on ASCII input. -/
def asciiUpper (c : Char) : Char :=
  if 97 ≤ c.toNat ∧ c.toNat ≤ 122 then Char.ofNat (c.toNat - 32) else c

/-- ASCII lower-casing of one character, modelling `str.lower` on ASCII input. -/
def asciiLower (c : Char) : Char :=
  if 65 ≤ c.toNat ∧ c.toNat ≤ 90 then Char.ofNat (c.toNat + 32) else c

/-- Model of `str.upper` (ASCII). -/
def upperL (cs : List Char) : List Char := cs.map asciiUpper

/-- Model of `str.lower` (ASCII). -/
def lowerL (cs : List Char) : List Char := cs.map asciiLower

/-- Model of `str.strip()`: drop Python whitespace from both ends. -/
def stripL (cs : List Char) : List Char :=
  ((cs.dropWhile pySpace).reverse.dropWhile pySpace).reverse

/-- Boolean list-prefix test. -/
def isPrefixL : List Char → List Char → Bool
  | [], _ => true
  | _ :: _, [] => false
  | p :: ps, c :: cs => p == c && isPrefixL ps cs

/-- Model of Python's substring test `pat in s`. -/
def isSubL (pat : List Char) : List Char → Bool
  | [] => isPrefixL pat []
  | c :: cs => isPrefixL pat (c :: cs) || isSubL pat cs

/-- Model of `str.endswith`. -/
def endsWithL (s pat : List Char) : Bool := isPrefixL pat.reverse s.reverse

/-- Value of a (non-empty) decimal digit string, as used by `int(...)` on the
digits captured by `(\d+)`. -/
def digitsToNat (ds : List Char) : Nat :=
  ds.foldl (fun a c => 10 * a + (c.toNat - 48)) 0

/-- Optional sign at the front of a numeral, as accepted by Python `float`. -/
def parseSignZ (cs : List Char) : ℤ × List Char :=
  match cs with
  | [] => (1, [])
  | c :: r =>
      if c == '+' then (1, r) else if c == '-' then (-1, r) else (1, c :: r)

/-- Continuation of an underscore-grouped digit run after at least one digit:
further digits extend the run, and an underscore is consumed only when a digit
follows it (PEP 515); anything else ends the run.  Returns the digits with the
underscores removed, and the rest of the string. -/
def digitRunCont : List Char → List Char × List Char
  | [] => ([], [])
  | c :: rest =>
      if isDigitC c then
        let p := digitRunCont rest
        (c :: p.1, p.2)
      else if c == '_' then
        match rest with
        | [] => ([], [c])
        | d :: rest2 =>
            if isDigitC d then
              let p := digitRunCont rest2
              (d :: p.1, p.2)
            else ([], c :: d :: rest2)
      else ([], c :: rest)

/-- Longest underscore-grouped digit run at the front of the string (empty
when the first character is not a digit), as accepted inside CPython float
literals. -/
def digitRun (cs : List Char) : List Char × List Char :=
  match cs with
  | [] => ([], [])
  | c :: rest =>
      if isDigitC c then
        let p := digitRunCont rest
        (c :: p.1, p.2)
      else ([], c :: rest)

/-- Exponent suffix of a Python float literal: either nothing, or
`[eE][+-]?digits` (underscore-grouped) consuming the rest of the string. -/
def parseExp (cs : List Char) : Option ℤ :=
  match cs with
  | [] => some 0
  | 'E' :: r => parseExpTail r
  | 'e' :: r => parseExpTail r
  | _ => none
where
  parseExpTail (r : List Char) : Option ℤ :=
    let p := parseSignZ r
    let ds := digitRun p.2
    if ds.1 ≠ [] ∧ ds.2 = [] then some (p.1 * (digitsToNat ds.1 : ℤ)) else none

/-- The exact rational value `sgn * (ip.fp) * 10^e` of a decimal literal with
integer digits `ip`, fraction digits `fp` and exponent `e`, built with
`mkRat` so that it evaluates by kernel reduction. -/
def floatVal (sgn : ℤ) (ip fp : List Char) (e : ℤ) : ℚ :=
  let base : ℤ :=
    sgn * ((digitsToNat ip * Nat.pow 10 fp.length + digitsToNat fp : ℕ) : ℤ)
  match e with
  | Int.ofNat k => mkRat (base * ((Nat.pow 10 k : ℕ) : ℤ)) (Nat.pow 10 fp.length)
  | Int.negSucc k => mkRat base (Nat.pow 10 (fp.length + (k + 1)))

/-- Model of Python `float(s)` on the finite decimal literals (ASCII):
surrounding whitespace is ignored, then an optional sign, an underscore-grouped
digit string with an optional decimal point (at least one digit overall), and
an optional exponent.  The value is computed exactly in `ℚ`.  `none` models a
raised `ValueError`.  The spellings `inf`/`infinity`/`nan`, which CPython also
accepts but whose values are not finite rationals, are outside this parser;
`pyFloatAccepts` below classifies the full acceptance domain, and every
statement about a parsed value goes through a `parseFloat _ = some _`
hypothesis, so nothing identifies those spellings with a rational. -/
def parseFloat (cs0 : List Char) : Option ℚ :=
  let cs := stripL cs0
  let sg := parseSignZ cs
  let p1 := digitRun sg.2
  let ip := p1.1
  let cs2 := p1.2
  match cs2 with
  | '.' :: cs3 =>
      let p2 := digitRun cs3
      let fp := p2.1
      let cs4 := p2.2
      if ip = [] ∧ fp = [] then none
      else
        match parseExp cs4 with
        | some e => some (floatVal sg.1 ip fp e)
        | none => none
  | _ =>
      if ip = [] then none
      else
        match parseExp cs2 with
        | some e => some (floatVal sg.1 ip [] e)
        | none => none

/-- Acceptance domain of CPython `float(str)` on ASCII input: a finite decimal
literal (`parseFloat` succeeds) or, after stripping whitespace and an optional
sign, one of the case-insensitive spellings `inf`, `infinity`, `nan`.  A
`false` result is exactly a raised `ValueError`.  The infinite/NaN spellings
carry no finite rational value, so the `ℚ`-valued model states nothing about
the value `convert_to_numeric` computes on them; the pipeline itself only
parses captures of `(\d+\.?\d*[KM]?)`, which are always finite literals. -/
def pyFloatAccepts (cs : List Char) : Bool :=
  (parseFloat cs).isSome ||
    (let low := lowerL (parseSignZ (stripL cs)).2
     low == strL "inf" || low == strL "infinity" || low == strL "nan")

/-- Abstract syntax for the regular expressions `search.py` uses.  Repetition
operators are restricted to one-character classes, which is all the source
patterns need; `bos` is `^` (begin of string, no `MULTILINE`), `eol` is `$`
(end of string or just before a final newline, no `MULTILINE`), `look` is a
lookahead `(?=...)`. -/
inductive RE : Type where
  | eps : RE
  | cls (p : Char → Bool) : RE
  | seq (a b : RE) : RE
  | alt (a b : RE) : RE
  | starG (p : Char → Bool) : RE
  | starL (p : Char → Bool) : RE
  | opt (p : Char → Bool) : RE
  | group (n : Nat) (a : RE) : RE
  | openG (n : Nat) : RE
  | closeG (n : Nat) : RE
  | look (a : RE) : RE
  | bos : RE
  | eol : RE

/-- A literal string, as a sequence of one-character classes. -/
def lit (s : String) : RE :=
  s.data.foldr (fun c r => RE.seq (RE.cls (fun x => x == c)) r) RE.eps

/-- Greedy `+` over a character class. -/
def plusG (p : Char → Bool) : RE := RE.seq (RE.cls p) (RE.starG p)

/-- Size measure used for termination of the matcher. -/
def reSize : RE → Nat
  | .eps => 1
  | .cls _ => 1
  | .seq a b => 1 + reSize a + reSize b
  | .alt a b => 1 + reSize a + reSize b
  | .starG _ => 1
  | .starL _ => 1
  | .opt _ => 1
  | .group _ a => 3 + reSize a
  | .openG _ => 1
  | .closeG _ => 1
  | .look a => 2 + reSize a
  | .bos => 1
  | .eol => 1

/-- Total size of a list of regular expressions. -/
def sizeL : List RE → Nat
  | [] => 0
  | r :: rs => reSize r + sizeL rs

/-- Capture-group state of a match in progress: the stack of open groups (with
the input suffix at their opening) and the finished captures. -/
structure GSt where
  opens : List (Nat × List Char)
  caps : List (Nat × List Char)

/-- Backtracking matcher for a sequence of regular expressions against the
suffix `rest` of the input (whose absolute position is `pos`).  Alternatives
are tried left first, greedy repetition prefers consuming, lazy repetition
prefers stopping — the same priorities as CPython's `re` engine — and the
first successful global alternative determines the result, which is the
remaining suffix together with the capture state.  Recursion is by fuel so
that the definition reduces structurally; every step strictly decreases
`rest.length + sizeL rs`, and `matchL` below supplies one more unit of fuel
than that measure, so the `fuel = 0` branch is unreachable. -/
def matchGo : Nat → List RE → Nat → List Char → GSt → Option (List Char × GSt)
  | 0, _, _, _, _ => none
  | Nat.succ f, res, pos, rest, st =>
    match res with
    | [] => some (rest, st)
    | .eps :: rs => matchGo f rs pos rest st
    | .cls p :: rs =>
        match rest with
        | [] => none
        | c :: rest' => if p c then matchGo f rs (pos + 1) rest' st else none
    | .seq a b :: rs => matchGo f (a :: b :: rs) pos rest st
    | .alt a b :: rs =>
        (matchGo f (a :: rs) pos rest st) <|> (matchGo f (b :: rs) pos rest st)
    | .starG p :: rs =>
        (match rest with
         | c :: rest' =>
             if p c then matchGo f (.starG p :: rs) (pos + 1) rest' st else none
         | [] => none) <|> matchGo f rs pos rest st
    | .starL p :: rs =>
        matchGo f rs pos rest st <|>
        (match rest with
         | c :: rest' =>
             if p c then matchGo f (.starL p :: rs) (pos + 1) rest' st else none
         | [] => none)
    | .opt p :: rs =>
        (match rest with
         | c :: rest' => if p c then matchGo f rs (pos + 1) rest' st else none
         | [] => none) <|> matchGo f rs pos rest st
    | .group n a :: rs => matchGo f (.openG n :: a :: .closeG n :: rs) pos rest st
    | .openG n :: rs =>
        matchGo f rs pos rest { st with opens := (n, rest) :: st.opens }
    | .closeG n :: rs =>
        match st.opens with
        | [] => none
        | (m, saved) :: os =>
            if m = n then
              matchGo f rs pos rest
                { opens := os,
                  caps := (n, saved.take (saved.length - rest.length)) :: st.caps }
            else none
    | .look a :: rs =>
        match matchGo f [a] pos rest st with
        | some (_, st') => matchGo f rs pos rest st'
        | none => none
    | .bos :: rs => if pos = 0 then matchGo f rs pos rest st else none
    | .eol :: rs =>
        if rest = [] ∨ rest = ['\n'] then matchGo f rs pos rest st else none

/-- Run the matcher with enough fuel for its termination measure. -/
def matchL (rs : List RE) (pos : Nat) (rest : List Char) (st : GSt) :
    Option (List Char × GSt) :=
  matchGo (rest.length + sizeL rs + 1) rs pos rest st

/-- Model of `re.match(r, inp)`: attempt the pattern at position 0; the result
is the matched slice (group 0) and the captures. -/
def reMatch (r : RE) (inp : List Char) : Option (List Char × List (Nat × List Char)) :=
  (matchL [r] 0 inp ⟨[], []⟩).map
    (fun p => (inp.take (inp.length - p.1.length), p.2.caps))

/-- Scan for the leftmost match, trying successive start positions as
`re.search` does. -/
def reSearchAux (r : RE) (pos : Nat) (rest : List Char) :
    Option (List Char × List (Nat × List Char)) :=
  match matchL [r] pos rest ⟨[], []⟩ with
  | some (rest', st) => some (rest.take (rest.length - rest'.length), st.caps)
  | none =>
      match rest with
      | [] => none
      | _ :: rest' => reSearchAux r (pos + 1) rest'

/-- Model of `re.search(r, inp)`: the leftmost match slice and its captures. -/
def reSearch (r : RE) (inp : List Char) : Option (List Char × List (Nat × List Char)) :=
  reSearchAux r 0 inp

/-- Captured text of group `n` (`m.group(n)` for a participating group). -/
def grp (caps : List (Nat × List Char)) (n : Nat) : Option (List Char) :=
  (caps.find? (fun p => p.1 == n)).map (fun p => p.2)

/-- Whether a pattern defines any capture group, modelling
`len(m.groups()) > 0`, which depends only on the pattern. -/
def reHasGroup : RE → Bool
  | .seq a b => reHasGroup a || reHasGroup b
  | .alt a b => reHasGroup a || reHasGroup b
  | .group _ _ => true
  | .look a => reHasGroup a
  | _ => false

/-- Local-part character class `[a-zA-Z0-9._%+-]` of the email patterns. -/
def emailLocalC (c : Char) : Bool :=
  isAlphaC c || isDigitC c || c == '.' || c == '_' || c == '%' || c == '+' || c == '-'

/-- Domain character class `[a-zA-Z0-9.-]` of the email patterns. -/
def emailDomainC (c : Char) : Bool := isAlphaC c || isDigitC c || c == '.' || c == '-'

/-- Body shared by the email patterns:
`[a-zA-Z0-9._%+-]+@[a-zA-Z0-9.-]+\.[a-zA-Z]{2,}`. -/
def emailBodyRE : RE :=
  .seq (plusG emailLocalC)
    (.seq (lit "@")
      (.seq (plusG emailDomainC)
        (.seq (lit ".") (.seq (.cls isAlphaC) (plusG isAlphaC)))))

/-- `name_pattern = r'^\d+\.\s*(.*?)\s*\(@'` (no `DOTALL`: `.` excludes `\n`). -/
def namePat : RE :=
  .seq .bos
    (.seq (plusG isDigitC)
      (.seq (lit ".")
        (.seq (.starG pySpace)
          (.seq (.group 1 (.starL (fun c => !(c == '\n'))))
            (.seq (.starG pySpace) (lit "(@"))))))

/-- `username_pattern = r'\(@([^)]+)\)'`. -/
def usernamePat : RE :=
  .seq (lit "(@") (.seq (.group 1 (plusG (fun c => !(c == ')')))) (lit ")"))

/-- `url_pattern = r'URL: (https://[^\s]+)'`. -/
def urlPat : RE :=
  .seq (lit "URL: ")
    (.group 1 (.seq (lit "https://") (plusG (fun c => !(pySpace c)))))

/-- First email pattern: `r'[a-zA-Z0-9._%+-]+@[a-zA-Z0-9.-]+\.[a-zA-Z]{2,}'`. -/
def emailPat1 : RE := emailBodyRE

/-- Second email pattern:
`r'(?:^|\s)\.{3}\s*([a-zA-Z0-9._%+-]+@[a-zA-Z0-9.-]+\.[a-zA-Z]{2,})'`. -/
def emailPat2 : RE :=
  .seq (.alt .bos (.cls pySpace))
    (.seq (lit "...") (.seq (.starG pySpace) (.group 1 emailBodyRE)))

/-- Third email pattern: `r'(?:^|\s)\.{3}\s*([a-zA-Z0-9._%+-]+)\s*gmail\.com'`. -/
def emailPat3 : RE :=
  .seq (.alt .bos (.cls pySpace))
    (.seq (lit "...")
      (.seq (.starG pySpace)
        (.seq (.group 1 (plusG emailLocalC))
          (.seq (.starG pySpace) (lit "gmail.com")))))

/-- The ordered list `email_patterns`. -/
def email_patterns : List RE := [emailPat1, emailPat2, emailPat3]

/-- One count `\d+\.?\d*[KM]?` of the meta-stats pattern. -/
def countRE : RE :=
  .seq (plusG isDigitC)
    (.seq (.opt (fun c => c == '.'))
      (.seq (.starG isDigitC) (.opt (fun c => c == 'K' || c == 'M'))))

/-- `meta_stats_pattern =
`r'(\d+\.?\d*[KM]?)\s+Followers,\s*(\d+\.?\d*[KM]?)\s+Following,\s*(\d+\.?\d*[KM]?)\s+Posts'`. -/
def metaPat : RE :=
  .seq (.group 1 countRE)
    (.seq (plusG pySpace)
      (.seq (lit "Followers,")
        (.seq (.starG pySpace)
          (.seq (.group 2 countRE)
            (.seq (plusG pySpace)
              (.seq (lit "Following,")
                (.seq (.starG pySpace)
                  (.seq (.group 3 countRE)
                    (.seq (plusG pySpace) (lit "Posts"))))))))))

/-- `r'Description: (.*?)(?=Meta Description:|$)'` with `re.DOTALL`
(`.` matches any character, `$` is end of string or before a final newline). -/
def descPat : RE :=
  .seq (lit "Description: ")
    (.seq (.group 1 (.starL (fun _ => true)))
      (.look (.alt (lit "Meta Description:") .eol)))

/-- `email_pattern = r'^[a-zA-Z0-9._%+-]+@[a-zA-Z0-9.-]+\.[a-zA-Z]{2,}$'` of
`validate_email`. -/
def validPat : RE := .seq .bos (.seq emailBodyRE .eol)

/-- The denylist `dummy_patterns = ['example.com', 'test.com', 'domain.com']`. -/
def dummy_patterns : List (List Char) :=
  [strL "example.com", strL "test.com", strL "domain.com"]

/-- Model of `validate_email`: `None` for a falsy argument, `None` unless the
syntax pattern matches at position 0, `None` when any denylisted domain occurs
in the lower-cased address, otherwise the address itself, unchanged. -/
def validate_email (email : List Char) : Option (List Char) :=
  if email = [] then none
  else if (reMatch validPat email).isSome = false then none
  else if dummy_patterns.any (fun p => isSubL p (lowerL email)) then none
  else some email

/-- Multiplication on `ℚ` written through `mkRat` so that it evaluates by
kernel reduction; `ratMul_eq_mul` below proves it is ordinary rational
multiplication. -/
def ratMul (a b : ℚ) : ℚ := mkRat (a.num * b.num) (a.den * b.den)

/-- Model of `convert_to_numeric`: `None`/empty give 0; otherwise strip and
upper-case, then on a `K` (checked first) or `M` remove every such letter and
scale the parsed number by 1 000 or 1 000 000; otherwise parse plainly; every
parse failure is absorbed to 0 (the `except` branch). -/
def convert_to_numeric (follower_string : Option (List Char)) : ℚ :=
  match follower_string with
  | none => 0
  | some s =>
      if s = [] then 0
      else
        let t := upperL (stripL s)
        if 'K' ∈ t then
          match parseFloat (t.filter (fun c => !(c == 'K'))) with
          | some q => ratMul q 1000
          | none => 0
        else if 'M' ∈ t then
          match parseFloat (t.filter (fun c => !(c == 'M'))) with
          | some q => ratMul q 1000000
          | none => 0
        else
          match parseFloat t with
          | some q => q
          | none => 0

/-- Field extraction for `number`: `re.match(r'(\d+)\.', result)` then `int`. -/
def numberOf (result : List Char) : Option Nat :=
  match reMatch (.seq (.group 1 (plusG isDigitC)) (lit ".")) result with
  | some (_, caps) => (grp caps 1).map digitsToNat
  | none => none

/-- Field extraction for `name`: `re.search(name_pattern, result)` then
`.group(1).strip()`. -/
def nameOf (result : List Char) : Option (List Char) :=
  match reSearch namePat result with
  | some (_, caps) => (grp caps 1).map stripL
  | none => none

/-- Field extraction for `username`: `re.search(username_pattern, result)`. -/
def usernameOf (result : List Char) : Option (List Char) :=
  match reSearch usernamePat result with
  | some (_, caps) => grp caps 1
  | none => none

/-- Field extraction for `url`: `re.search(url_pattern, result)`. -/
def urlOf (result : List Char) : Option (List Char) :=
  match reSearch urlPat result with
  | some (_, caps) => grp caps 1
  | none => none

/-- The `for pattern in email_patterns` loop with its `break`: the first
pattern that matches supplies `group(1)` if the pattern has capture groups,
else `group(0)`. -/
def tryEmailPats : List RE → List Char → Option (List Char)
  | [], _ => none
  | p :: ps, result =>
      match reSearch p result with
      | some (whole, caps) =>
          some (if reHasGroup p then (grp caps 1).getD whole else whole)
      | none => tryEmailPats ps result

/-- Raw email candidate selected by the pattern loop, before the `gmail.com`
concatenation and validation. -/
def emailRawOf (result : List Char) : Option (List Char) := tryEmailPats email_patterns result

/-- The literal `'gmail.com'`. -/
def gmailCom : List Char := strL "gmail.com"

/-- Field extraction for `email`: the matched candidate, with `gmail.com`
appended when it does not end in `gmail.com` and the chunk contains
`gmail.com`, then `validate_email`. -/
def emailOf (result : List Char) : Option (List Char) :=
  match emailRawOf result with
  | none => none
  | some email =>
      validate_email
        (if !(endsWithL email gmailCom) && isSubL gmailCom result then
          email ++ gmailCom
        else email)

/-- Field extraction for the three counts:
`re.search(meta_stats_pattern, result)` with groups 1, 2, 3. -/
def statsOf (result : List Char) : Option (List Char × List Char × List Char) :=
  match reSearch metaPat result with
  | some (_, caps) =>
      match grp caps 1, grp caps 2, grp caps 3 with
      | some a, some b, some c => some (a, b, c)
      | _, _, _ => none
  | none => none

/-- The `followers` display string. -/
def followersOf (result : List Char) : Option (List Char) :=
  (statsOf result).map (fun t => t.1)

/-- The `following` display string. -/
def followingOf (result : List Char) : Option (List Char) :=
  (statsOf result).map (fun t => t.2.1)

/-- The `posts` display string. -/
def postsOf (result : List Char) : Option (List Char) :=
  (statsOf result).map (fun t => t.2.2)

/-- The numeric sort key: `convert_to_numeric` of the followers display string
when the stats pattern matched, otherwise the initial 0. -/
def fcnOf (result : List Char) : ℚ :=
  match statsOf result with
  | some t => convert_to_numeric (some t.1)
  | none => 0

/-- Field extraction for `description`: `re.search` of the `DOTALL` pattern,
then `.group(1).strip()`. -/
def descriptionOf (result : List Char) : Option (List Char) :=
  match reSearch descPat result with
  | some (_, caps) => (grp caps 1).map stripL
  | none => none

/-- One row of the output CSV: the `data` dictionary of the extraction loop. -/
structure RecordData where
  number : Option Nat
  name : Option (List Char)
  username : Option (List Char)
  url : Option (List Char)
  email : Option (List Char)
  followers : Option (List Char)
  following : Option (List Char)
  posts : Option (List Char)
  description : Option (List Char)
  follower_count_numeric : ℚ
deriving Repr, DecidableEq

/-- The body of the per-chunk extraction loop: initialise every field to
`None` (0 for the numeric count) and fill the fields in the order the source
does. -/
def extractChunk (result : List Char) : RecordData :=
  let data : RecordData :=
    ⟨none, none, none, none, none, none, none, none, none, 0⟩
  let data := { data with number := numberOf result }
  let data := { data with name := nameOf result }
  let data := { data with username := usernameOf result }
  let data := { data with url := urlOf result }
  let data := { data with email := emailOf result }
  let data :=
    match statsOf result with
    | some t =>
        { data with
          followers := some t.1, following := some t.2.1, posts := some t.2.2,
          follower_count_numeric := convert_to_numeric (some t.1) }
    | none => data
  let data := { data with description := descriptionOf result }
  data

/-- Lookahead test of the split pattern: does the text after a newline start
with `\d+\.`? -/
def isSplitMarker (rest : List Char) : Bool :=
  match rest with
  | [] => false
  | c :: _ => isDigitC c && ((rest.dropWhile isDigitC).head? == some '.')

/-- Worker for `re.split(r'\n(?=\d+\.)', content)`: a newline followed by
`\d+\.` ends the current chunk (the newline is consumed), every other
character is accumulated. -/
def splitAux : List Char → List Char → List (List Char)
  | [], acc => [acc.reverse]
  | c :: rest, acc =>
      if c == '\n' && isSplitMarker rest then acc.reverse :: splitAux rest []
      else splitAux rest (c :: acc)

/-- Model of `results = re.split(r'\n(?=\d+\.)', content)`. -/
def splitResults (content : List Char) : List (List Char) := splitAux content []

/-- The extraction loop over all chunks: blank chunks (`not result.strip()`)
are skipped, every other chunk contributes exactly one record. -/
def extractRecords (content : List Char) : List RecordData :=
  ((splitResults content).filter (fun r => !(stripL r).isEmpty)).map extractChunk

/-- Stable insertion of a record in front of the first element whose key is
not larger; together with `sortByFollowers` this models
`extracted_items.sort(key=lambda x: x["follower_count_numeric"], reverse=True)`,
which CPython documents as a stable descending sort. -/
def insertDesc (r : RecordData) : List RecordData → List RecordData
  | [] => [r]
  | x :: xs =>
      if r.follower_count_numeric < x.follower_count_numeric then
        x :: insertDesc r xs
      else r :: x :: xs

/-- Stable sort by `follower_count_numeric`, descending. -/
def sortByFollowers (l : List RecordData) : List RecordData := l.foldr insertDesc []

/-- The full pipeline on one text blob: split, extract, sort.  The rows of the
output CSV are exactly this list, in order. -/
def rankedRecords (content : List Char) : List RecordData :=
  sortByFollowers (extractRecords content)

/-- No position after a newline carries a `\d+\.` marker. -/
def noSplitAfterNl : List Char → Bool
  | [] => true
  | c :: rest => !(c == '\n' && isSplitMarker rest) && noSplitAfterNl rest

/-- No line of the text begins with an integer immediately followed by a
period (neither the first line nor any line after a newline). -/
def noMarkerLine (cs : List Char) : Bool := !(isSplitMarker cs) && noSplitAfterNl cs

/-- The match of the first (direct) email pattern alone, `group(0)` (the
pattern defines no capture group). -/
def searchEmail1 (chunk : List Char) : Option (List Char) :=
  (reSearch emailPat1 chunk).map (fun p => p.1)

/-- The match of the second (ellipsis-truncated full email) pattern alone,
`group(1)` as the pattern defines a capture group. -/
def searchEmail2 (chunk : List Char) : Option (List Char) :=
  (reSearch emailPat2 chunk).map (fun p => (grp p.2 1).getD p.1)

/-- The match of the third (ellipsis-truncated local part) pattern alone,
`group(1)` as the pattern defines a capture group. -/
def searchEmail3 (chunk : List Char) : Option (List Char) :=
  (reSearch emailPat3 chunk).map (fun p => (grp p.2 1).getD p.1)

/-- The string `convert_to_numeric` hands to `float`: the trimmed upper-cased
input with every `K` removed when a `K` occurs, otherwise every `M` removed
when an `M` occurs, otherwise unchanged. -/
def attemptedNumeral (s : List Char) : List Char :=
  let t := upperL (stripL s)
  if 'K' ∈ t then t.filter (fun c => !(c == 'K'))
  else if 'M' ∈ t then t.filter (fun c => !(c == 'M'))
  else t

/-- The well-formed chunk of the specification's round-trip property. -/
def janeChunk : List Char :=
  strL "1. Jane Doe (@janedoe)\n   URL: https://instagram.com/janedoe\n   Description: Lifestyle blogger\n   10K Followers, 200 Following, 150 Posts\n   Meta Description: blog"

/-- A chunk with a truncated local-part-only email and `gmail.com` present. -/
def truncChunk : List Char :=
  strL "1. Jane Doe (@janedoe)\n   Contact: ... jane gmail.com"

/-- A chunk with a direct full email and an incidental `gmail.com` mention. -/
def directChunk : List Char :=
  strL "1. J (@j)\n   Reach me at j@x.com or via gmail.com"

/-- Two listings whose follower counts are `500K` and `2M`, in that order. -/
def content6 : List Char :=
  strL "1. A (@a)\n   500K Followers, 1 Following, 1 Posts\n2. B (@b)\n   2M Followers, 1 Following, 1 Posts"

/-- A single listing carrying a valid contact email. -/
def content7 : List Char := strL "1. A (@a)\n   Email: jane.doe@yahoo.com"

set_option maxRecDepth 1000000

/-- The reducible multiplication agrees with rational multiplication. -/
theorem ratMul_eq_mul (a b : ℚ) : ratMul a b = a * b := by
  unfold ratMul
  rw [Rat.mul_def, Rat.normalize_eq_mkRat]

/-- The sequential updates of the extraction loop amount to one record whose
fields are the independent per-field extractions. -/
theorem extractChunk_fields (result : List Char) :
    extractChunk result =
      ⟨numberOf result, nameOf result, usernameOf result, urlOf result,
        emailOf result, followersOf result, followingOf result, postsOf result,
        descriptionOf result, fcnOf result⟩ := by
  unfold extractChunk followersOf followingOf postsOf fcnOf
  cases h : statsOf result <;> simp [h]

/-- Claim C1 (counterexample): extracting the specification's well-formed
chunk does not give the description `"Lifestyle blogger"`; the captured text
runs up to the `Meta Description:` marker and so includes the stats line. -/
theorem C1_counterexample :
    (extractChunk janeChunk).description ≠ some (strL "Lifestyle blogger") := by
  decide

/-- Claim C1 (amended): extracting the single well-formed chunk yields
sequence number 1, name `"Jane Doe"`, handle `"janedoe"`, the Instagram URL,
followers display `"10K"` with numeric value 10000, and as description the
entire text strictly between `Description:` and `Meta Description:`, trimmed:
`"Lifestyle blogger\n   10K Followers, 200 Following, 150 Posts"`. -/
theorem C1_round_trip :
    extractChunk janeChunk =
      { number := some 1, name := some (strL "Jane Doe"),
        username := some (strL "janedoe"),
        url := some (strL "https://instagram.com/janedoe"), email := none,
        followers := some (strL "10K"), following := some (strL "200"),
        posts := some (strL "150"),
        description :=
          some (strL "Lifestyle blogger\n   10K Followers, 200 Following, 150 Posts"),
        follower_count_numeric := 10000 } := by
  decide

/-- Claim C3: on a chunk holding the truncated email `... jane` with
`gmail.com` present, the pattern loop captures `jane`, the repair concatenates
to `janegmail.com` — without the `@` the intended reconstruction requires —
and that string fails validation, so the record's email is null rather than
the specified `jane@gmail.com`. -/
theorem C3_truncated_gmail_never_validates :
    emailRawOf truncChunk = some (strL "jane") ∧
    (if !(endsWithL (strL "jane") gmailCom) && isSubL gmailCom truncChunk then
        strL "jane" ++ gmailCom
      else strL "jane") = strL "janegmail.com" ∧
    validate_email (strL "janegmail.com") = none ∧
    (extractChunk truncChunk).email = none := by
  decide

/-- Claim C4 (counterexample): on a chunk whose direct full email is
`j@x.com` and which also mentions `gmail.com`, the first pattern's match is
not submitted to validation unchanged: the extractor stores
`j@x.comgmail.com`. -/
theorem C4_counterexample :
    searchEmail1 directChunk = some (strL "j@x.com") ∧
    (extractChunk directChunk).email = some (strL "j@x.comgmail.com") ∧
    (extractChunk directChunk).email ≠ some (strL "j@x.com") := by
  decide

/-- Claim C2 (counterexample): the text `"hello"` has no line beginning with
an integer and a period, yet segmentation yields one chunk (the whole text is
not discarded) and the pipeline produces one record, not zero. -/
theorem C2_counterexample :
    noMarkerLine (strL "hello") = true ∧
    splitResults (strL "hello") = [strL "hello"] ∧
    rankedRecords (strL "hello") ≠ [] := by
  decide

/-- When no newline is followed by a `\d+\.` marker, the split worker returns
a single chunk: the pending accumulator followed by the rest of the text. -/
theorem splitAux_of_noSplit (cs : List Char) :
    ∀ acc, noSplitAfterNl cs = true → splitAux cs acc = [acc.reverse ++ cs] := by
  induction cs with
  | nil => intro acc _; simp [splitAux]
  | cons c rest ih =>
      intro acc h
      unfold noSplitAfterNl at h
      rw [Bool.and_eq_true, Bool.not_eq_true'] at h
      unfold splitAux
      rw [h.1, ih (c :: acc) h.2]
      simp

/-- Claim C2 (amended): on input text containing no line that begins with an
integer immediately followed by a period, segmentation yields the whole text
as a single chunk (text before the first marker is kept, not discarded), and
the pipeline produces zero output records exactly when the text is empty or
whitespace-only — empty and whitespace-only chunks being dropped. -/
theorem C2_no_marker_single_chunk (content : List Char)
    (h : noMarkerLine content = true) :
    splitResults content = [content] ∧
    (rankedRecords content = [] ↔ stripL content = []) := by
  unfold noMarkerLine at h
  rw [Bool.and_eq_true] at h
  have hsplit : splitResults content = [content] := by
    unfold splitResults
    rw [splitAux_of_noSplit content [] h.2]
    simp
  refine ⟨hsplit, ?_⟩
  unfold rankedRecords extractRecords
  rw [hsplit]
  by_cases hs : stripL content = []
  · simp [hs, sortByFollowers]
  · simp [hs, sortByFollowers, insertDesc]

/-- Witness for C2: the marker-free text `"hello"` satisfies the hypothesis;
it segments to itself, and being non-blank it yields a non-empty record
list. -/
theorem C2_no_marker_single_chunk_witness :
    noMarkerLine (strL "hello") = true ∧
    (splitResults (strL "hello") = [strL "hello"] ∧
      (rankedRecords (strL "hello") = [] ↔ stripL (strL "hello") = [])) :=
  ⟨by decide, C2_no_marker_single_chunk (strL "hello") (by decide)⟩

/-- Claim C8: field extractions within a chunk are independent — the record
built by the sequential extraction loop is exactly the tuple of the per-field
total functions of the chunk, so the absence or mismatch of any one field
pattern never affects another field, and every field extraction is a total
function (unmatched fields are simply `none`). -/
theorem C8_field_independence (result : List Char) :
    extractChunk result =
      ⟨numberOf result, nameOf result, usernameOf result, urlOf result,
        emailOf result, followersOf result, followingOf result, postsOf result,
        descriptionOf result, fcnOf result⟩ :=
  extractChunk_fields result

/-- Claim C9: `validate_email` never modifies the address it accepts — the
result is `None` or exactly the input string, unchanged. -/
theorem C9_validate_email_identity (email : List Char) :
    validate_email email = none ∨ validate_email email = some email := by
  unfold validate_email
  split
  · exact Or.inl rfl
  · split
    · exact Or.inl rfl
    · split
      · exact Or.inl rfl
      · exact Or.inr rfl

/-- Membership after stable insertion: the inserted record or an old one. -/
theorem mem_insertDesc {a r : RecordData} :
    ∀ {l : List RecordData}, a ∈ insertDesc r l → a = r ∨ a ∈ l := by
  intro l
  induction l with
  | nil =>
      intro h
      simp [insertDesc] at h
      exact Or.inl h
  | cons x xs ih =>
      intro h
      unfold insertDesc at h
      split at h
      · rcases List.mem_cons.1 h with h1 | h2
        · exact Or.inr (List.mem_cons.2 (Or.inl h1))
        · rcases ih h2 with h3 | h4
          · exact Or.inl h3
          · exact Or.inr (List.mem_cons.2 (Or.inr h4))
      · exact List.mem_cons.1 h

/-- Stable insertion preserves the descending order on the sort key. -/
theorem insertDesc_pairwise (r : RecordData) :
    ∀ l : List RecordData,
      l.Pairwise (fun a b => b.follower_count_numeric ≤ a.follower_count_numeric) →
      (insertDesc r l).Pairwise
        (fun a b => b.follower_count_numeric ≤ a.follower_count_numeric) := by
  intro l
  induction l with
  | nil => intro _; simp [insertDesc]
  | cons x xs ih =>
      intro hp
      rw [List.pairwise_cons] at hp
      unfold insertDesc
      split
      · rename_i hlt
        rw [List.pairwise_cons]
        refine ⟨?_, ih hp.2⟩
        intro y hy
        rcases mem_insertDesc hy with rfl | hmem
        · exact le_of_lt hlt
        · exact hp.1 y hmem
      · rename_i hlt
        rw [List.pairwise_cons]
        refine ⟨?_, ?_⟩
        · intro y hy
          rcases List.mem_cons.1 hy with rfl | hmem
          · exact le_of_not_lt hlt
          · exact le_trans (hp.1 y hmem) (le_of_not_lt hlt)
        · rw [List.pairwise_cons]
          exact hp

/-- The sorted list is ordered by descending sort key. -/
theorem sortByFollowers_pairwise (l : List RecordData) :
    (sortByFollowers l).Pairwise
      (fun a b => b.follower_count_numeric ≤ a.follower_count_numeric) := by
  induction l with
  | nil => simp [sortByFollowers]
  | cons a l ih => exact insertDesc_pairwise a (sortByFollowers l) ih

/-- Stable insertion is a permutation. -/
theorem insertDesc_perm (r : RecordData) :
    ∀ l : List RecordData, (insertDesc r l).Perm (r :: l) := by
  intro l
  induction l with
  | nil => simp [insertDesc]
  | cons x xs ih =>
      unfold insertDesc
      split
      · exact (List.Perm.cons x ih).trans (List.Perm.swap r x xs)
      · exact List.Perm.refl _

/-- The sort is a permutation of its input. -/
theorem sortByFollowers_perm (l : List RecordData) : (sortByFollowers l).Perm l := by
  induction l with
  | nil => exact List.Perm.refl _
  | cons a l ih =>
      exact (insertDesc_perm a (sortByFollowers l)).trans (List.Perm.cons a ih)

/-- Stability of insertion, expressed on the records of one key value: their
subsequence is untouched except for the inserted record joining its class at
the front of the later elements. -/
theorem insertDesc_filter (q : ℚ) (r : RecordData) :
    ∀ l : List RecordData,
      (insertDesc r l).filter (fun x => decide (x.follower_count_numeric = q)) =
        (r :: l).filter (fun x => decide (x.follower_count_numeric = q)) := by
  intro l
  induction l with
  | nil => rfl
  | cons x xs ih =>
      unfold insertDesc
      split
      · rename_i hlt
        by_cases hrq : r.follower_count_numeric = q
        · by_cases hxq : x.follower_count_numeric = q
          · exact absurd hlt (by rw [hrq, hxq]; exact lt_irrefl q)
          · simp [List.filter_cons, hrq, hxq, ih]
        · by_cases hxq : x.follower_count_numeric = q <;>
            simp [List.filter_cons, hrq, hxq, ih]
      · rfl

/-- Stability of the sort: the records of any one key value appear in the
output in exactly their input order. -/
theorem sortByFollowers_filter (q : ℚ) (l : List RecordData) :
    (sortByFollowers l).filter (fun x => decide (x.follower_count_numeric = q)) =
      l.filter (fun x => decide (x.follower_count_numeric = q)) := by
  induction l with
  | nil => rfl
  | cons a l ih =>
      show (insertDesc a (sortByFollowers l)).filter _ = _
      rw [insertDesc_filter q a (sortByFollowers l), List.filter_cons,
        List.filter_cons, ih]

/-- Claim C6: the output is ordered by `follower_count_numeric` descending;
records of equal key keep the relative order of their chunks in the input
(stable sort, chunk order as tie-break); and concretely a `2M` chunk ranks
strictly before a `500K` chunk even when it comes later in the input. -/
theorem C6_ranking_sorted_stable :
    (∀ content, (rankedRecords content).Pairwise
        (fun a b => b.follower_count_numeric ≤ a.follower_count_numeric)) ∧
    (∀ content q,
        (rankedRecords content).filter
            (fun r => decide (r.follower_count_numeric = q)) =
          (extractRecords content).filter
            (fun r => decide (r.follower_count_numeric = q))) ∧
    (rankedRecords content6).map (fun r => r.followers) =
      [some (strL "2M"), some (strL "500K")] := by
  refine ⟨fun content => sortByFollowers_pairwise (extractRecords content),
    fun content q => sortByFollowers_filter q (extractRecords content), ?_⟩
  decide

/-- What a successful validation tells about the address: it is returned
unchanged, it matches the syntax pattern, and no denylisted domain occurs in
its lower-cased form. -/
theorem validate_email_some {e r : List Char} (h : validate_email e = some r) :
    r = e ∧ (reMatch validPat e).isSome = true ∧
      ∀ d ∈ dummy_patterns, isSubL d (lowerL e) = false := by
  unfold validate_email at h
  split at h
  · exact absurd h (by simp)
  · split at h
    · exact absurd h (by simp)
    · split at h
      · exact absurd h (by simp)
      · rename_i hempty hpat hdummy
        refine ⟨(Option.some.inj h).symm,
          Option.ne_none_iff_isSome.1 (by simpa using hpat), ?_⟩
        intro d hd
        by_contra hne
        rw [Bool.not_eq_false] at hne
        exact hdummy (List.any_eq_true.2 ⟨d, hd, hne⟩)

/-- Claim C7: every record's email is null or a string that matches the
validation pattern and contains none of the denylisted placeholder domains;
and the syntactically valid candidate `jane@example.com` is rejected. -/
theorem C7_email_validated_or_null :
    (∀ content r, r ∈ rankedRecords content →
        r.email = none ∨
          ∃ e, r.email = some e ∧ (reMatch validPat e).isSome = true ∧
            ∀ d ∈ dummy_patterns, isSubL d (lowerL e) = false) ∧
    ((reMatch validPat (strL "jane@example.com")).isSome = true ∧
      validate_email (strL "jane@example.com") = none) := by
  constructor
  · intro content r hr
    have hmem : r ∈ extractRecords content :=
      (sortByFollowers_perm (extractRecords content)).mem_iff.1 hr
    rcases List.mem_map.1 hmem with ⟨chunk, _, rfl⟩
    have hre : (extractChunk chunk).email = emailOf chunk := by
      rw [extractChunk_fields]
    rw [hre]
    unfold emailOf
    cases hraw : emailRawOf chunk with
    | none => exact Or.inl rfl
    | some cand =>
        have hred :
            (match some cand with
              | none => none
              | some email =>
                  validate_email
                    (if !(endsWithL email gmailCom) && isSubL gmailCom chunk then
                      email ++ gmailCom
                    else email)) =
              validate_email
                (if !(endsWithL cand gmailCom) && isSubL gmailCom chunk then
                  cand ++ gmailCom
                else cand) := rfl
        rw [hred]
        cases hv : validate_email
            (if !(endsWithL cand gmailCom) && isSubL gmailCom chunk then
              cand ++ gmailCom
            else cand) with
        | none => exact Or.inl rfl
        | some r' =>
            rcases validate_email_some hv with ⟨rfl, h2, h3⟩
            exact Or.inr ⟨_, rfl, h2, h3⟩
  · exact ⟨by decide, by decide⟩

/-- Witness for C7 at a concrete pipeline run whose single record carries the
validated address `jane.doe@yahoo.com`. -/
theorem C7_email_validated_or_null_witness :
    (extractChunk content7).email = none ∨
      ∃ e, (extractChunk content7).email = some e ∧
        (reMatch validPat e).isSome = true ∧
        ∀ d ∈ dummy_patterns, isSubL d (lowerL e) = false :=
  C7_email_validated_or_null.1 content7 (extractChunk content7) (by decide)

/-- Claim C10: the pipeline emits exactly one row per non-whitespace chunk —
the number of output records equals the number of non-blank chunks of the
split — and a chunk on which every field pattern fails still produces a
record, with every field null and numeric count 0. -/
theorem C10_one_record_per_chunk :
    (∀ content, (rankedRecords content).length =
        ((splitResults content).filter (fun r => !(stripL r).isEmpty)).length) ∧
    (∀ chunk, numberOf chunk = none → nameOf chunk = none →
        usernameOf chunk = none → urlOf chunk = none → emailRawOf chunk = none →
        statsOf chunk = none → descriptionOf chunk = none →
        extractChunk chunk =
          ⟨none, none, none, none, none, none, none, none, none, 0⟩) := by
  constructor
  · intro content
    show (sortByFollowers (extractRecords content)).length = _
    rw [(sortByFollowers_perm (extractRecords content)).length_eq]
    unfold extractRecords
    rw [List.length_map]
  · intro chunk h1 h2 h3 h4 h5 h6 h7
    rw [extractChunk_fields]
    unfold emailOf followersOf followingOf postsOf fcnOf
    rw [h1, h2, h3, h4, h5, h6, h7]
    rfl

/-- Witness for C10: on the chunk `"x"` every pattern fails and the extracted
record is all-null with numeric count 0. -/
theorem C10_one_record_per_chunk_witness :
    extractChunk (strL "x") =
      ⟨none, none, none, none, none, none, none, none, none, 0⟩ :=
  C10_one_record_per_chunk.2 (strL "x") (by decide) (by decide) (by decide)
    (by decide) (by decide) (by decide) (by decide)

/-- Claim C4 (amended): the email candidate patterns are applied in priority
order, stopping at the first match — the loop's candidate is the direct
pattern's match when that pattern matches, else the truncated-full-email
pattern's capture, else the truncated-local-part pattern's capture — and the
matched candidate, from whichever of the three patterns, is submitted to
validation unchanged only when it already ends in `gmail.com` or the chunk
does not contain `gmail.com`; otherwise `gmail.com` is appended to it before
validation. -/
theorem C4_first_match_concat_rule (chunk : List Char) :
    emailRawOf chunk =
      ((searchEmail1 chunk).or ((searchEmail2 chunk).or (searchEmail3 chunk))) ∧
    ∀ e, emailRawOf chunk = some e →
      (extractChunk chunk).email =
        validate_email
          (if !(endsWithL e gmailCom) && isSubL gmailCom chunk then
            e ++ gmailCom
          else e) := by
  constructor
  · have hg1 : reHasGroup emailPat1 = false := by decide
    have hg2 : reHasGroup emailPat2 = true := by decide
    have hg3 : reHasGroup emailPat3 = true := by decide
    cases hp1 : reSearch emailPat1 chunk with
    | some p =>
        obtain ⟨w, caps⟩ := p
        simp [emailRawOf, email_patterns, tryEmailPats, searchEmail1, hp1, hg1]
    | none =>
        cases hp2 : reSearch emailPat2 chunk with
        | some p =>
            obtain ⟨w, caps⟩ := p
            simp [emailRawOf, email_patterns, tryEmailPats, searchEmail1,
              searchEmail2, hp1, hp2, hg2]
        | none =>
            cases hp3 : reSearch emailPat3 chunk with
            | some p =>
                obtain ⟨w, caps⟩ := p
                simp [emailRawOf, email_patterns, tryEmailPats, searchEmail1,
                  searchEmail2, searchEmail3, hp1, hp2, hp3, hg3]
            | none =>
                simp [emailRawOf, email_patterns, tryEmailPats, searchEmail1,
                  searchEmail2, searchEmail3, hp1, hp2, hp3]
  · intro e he
    have hre : (extractChunk chunk).email = emailOf chunk := by
      rw [extractChunk_fields]
    rw [hre]
    unfold emailOf
    rw [he]

/-- Witness for C4 at the chunk whose direct email is `j@x.com` and which
also contains `gmail.com`: the concatenation hypothesis is discharged at the
pattern loop's candidate. -/
theorem C4_first_match_concat_rule_witness :
    (extractChunk directChunk).email =
      validate_email
        (if !(endsWithL (strL "j@x.com") gmailCom) && isSubL gmailCom directChunk
        then strL "j@x.com" ++ gmailCom
        else strL "j@x.com") :=
  (C4_first_match_concat_rule directChunk).2 (strL "j@x.com") (by decide)

/-- A string CPython `float` does not accept is not a finite decimal literal
either: rejection by the full acceptance classifier implies `parseFloat`
fails. -/
theorem parseFloat_none_of_not_accepts {l : List Char}
    (h : pyFloatAccepts l = false) : parseFloat l = none := by
  cases hp : parseFloat l with
  | none => rfl
  | some q =>
      unfold pyFloatAccepts at h
      rw [hp] at h
      simp at h

/-- Claim C5: for a count string which, after trimming and upper-casing, is a
number followed by `K` (resp. `M`), `convert_to_numeric` returns the number
times 1000 (resp. 1000000); a plain numeric string returns its parsed value;
and for any unparseable input it returns 0 rather than raising — `None`, the
empty string (the falsy check), and every string on which the attempted
`float` call raises, i.e. where the string the code passes to `float` lies
outside CPython's acceptance domain (this covers digit-bearing garbage such
as `1.2.3` and excludes the parseable `inf`/`nan` spellings). -/
theorem C5_convert_to_numeric_spec :
    (∀ s n q, upperL (stripL s) = n ++ strL "K" → 'K' ∉ n → 'M' ∉ n →
        parseFloat n = some q → convert_to_numeric (some s) = q * 1000) ∧
    (∀ s n q, upperL (stripL s) = n ++ strL "M" → 'K' ∉ n → 'M' ∉ n →
        parseFloat n = some q → convert_to_numeric (some s) = q * 1000000) ∧
    (∀ s q, 'K' ∉ upperL (stripL s) → 'M' ∉ upperL (stripL s) →
        parseFloat (upperL (stripL s)) = some q →
        convert_to_numeric (some s) = q) ∧
    convert_to_numeric none = 0 ∧
    (∀ s, s = [] ∨ pyFloatAccepts (attemptedNumeral s) = false →
        convert_to_numeric (some s) = 0) := by
  refine ⟨?_, ?_, ?_, rfl, ?_⟩
  · intro s n q ht hK hM hp
    have hs : s ≠ [] := by
      intro h0
      subst h0
      rw [show upperL (stripL ([] : List Char)) = [] from rfl] at ht
      have hlen := congrArg List.length ht
      rw [List.length_append, show (strL "K").length = 1 from rfl] at hlen
      simp at hlen
    have hfK : (n ++ strL "K").filter (fun c => !(c == 'K')) = n := by
      rw [List.filter_append,
        show (strL "K").filter (fun c => !(c == 'K')) = [] from by decide,
        List.filter_eq_self.2 (fun a ha => by
          rw [Bool.not_eq_true', beq_eq_false_iff_ne]
          exact fun h => hK (h ▸ ha)),
        List.append_nil]
    simp only [convert_to_numeric]
    rw [if_neg hs, ht,
      if_pos (show 'K' ∈ n ++ strL "K" from
        List.mem_append.2 (Or.inr (by decide))),
      hfK, hp]
    exact ratMul_eq_mul q 1000
  · intro s n q ht hK hM hp
    have hs : s ≠ [] := by
      intro h0
      subst h0
      rw [show upperL (stripL ([] : List Char)) = [] from rfl] at ht
      have hlen := congrArg List.length ht
      rw [List.length_append, show (strL "M").length = 1 from rfl] at hlen
      simp at hlen
    have hnoK : 'K' ∉ n ++ strL "M" := by
      intro hmem
      rcases List.mem_append.1 hmem with h1 | h1
      · exact hK h1
      · exact absurd h1 (by decide)
    have hfM : (n ++ strL "M").filter (fun c => !(c == 'M')) = n := by
      rw [List.filter_append,
        show (strL "M").filter (fun c => !(c == 'M')) = [] from by decide,
        List.filter_eq_self.2 (fun a ha => by
          rw [Bool.not_eq_true', beq_eq_false_iff_ne]
          exact fun h => hM (h ▸ ha)),
        List.append_nil]
    simp only [convert_to_numeric]
    rw [if_neg hs, ht, if_neg hnoK,
      if_pos (show 'M' ∈ n ++ strL "M" from
        List.mem_append.2 (Or.inr (by decide))),
      hfM, hp]
    exact ratMul_eq_mul q 1000000
  · intro s q hK hM hp
    have hs : s ≠ [] := by
      intro h0
      subst h0
      rw [show upperL (stripL ([] : List Char)) = [] from rfl,
        show parseFloat ([] : List Char) = none from by decide] at hp
      exact Option.noConfusion hp
    simp only [convert_to_numeric]
    rw [if_neg hs, if_neg hK, if_neg hM, hp]
  · intro s h
    by_cases hs : s = []
    · rw [hs]; rfl
    · rcases h with h0 | hacc
      · exact absurd h0 hs
      · have hnone := parseFloat_none_of_not_accepts hacc
        simp only [attemptedNumeral] at hnone
        simp only [convert_to_numeric]
        rw [if_neg hs]
        by_cases hk : 'K' ∈ upperL (stripL s)
        · rw [if_pos hk] at hnone
          rw [if_pos hk, hnone]
        · rw [if_neg hk] at hnone
          rw [if_neg hk]
          by_cases hm : 'M' ∈ upperL (stripL s)
          · rw [if_pos hm] at hnone
            rw [if_pos hm, hnone]
          · rw [if_neg hm] at hnone
            rw [if_neg hm, hnone]

/-- Witness for C5: `10k` normalizes to 10000, `2M` to 2000000, `123` to 123,
`None` to 0, and the unparseable strings `abc` (digit-free garbage) and
`1.2.3` (digit-bearing garbage) to 0. -/
theorem C5_convert_to_numeric_spec_witness :
    convert_to_numeric (some (strL "10k")) = 10 * 1000 ∧
    convert_to_numeric (some (strL "2M")) = 2 * 1000000 ∧
    convert_to_numeric (some (strL "123")) = 123 ∧
    convert_to_numeric none = 0 ∧
    convert_to_numeric (some (strL "abc")) = 0 ∧
    convert_to_numeric (some (strL "1.2.3")) = 0 :=
  ⟨C5_convert_to_numeric_spec.1 (strL "10k") (strL "10") 10 (by decide)
      (by decide) (by decide) (by decide),
    C5_convert_to_numeric_spec.2.1 (strL "2M") (strL "2") 2 (by decide)
      (by decide) (by decide) (by decide),
    C5_convert_to_numeric_spec.2.2.1 (strL "123") 123 (by decide) (by decide)
      (by decide),
    C5_convert_to_numeric_spec.2.2.2.1,
    C5_convert_to_numeric_spec.2.2.2.2 (strL "abc") (Or.inr (by decide)),
    C5_convert_to_numeric_spec.2.2.2.2 (strL "1.2.3") (Or.inr (by decide))⟩

end GSearch
